import Mathlib

/-!
Verification of the anonymous Diffie-Hellman key-exchange module
(`lib/auth_anon.c`): the wire codec for the two handshake messages,
the four role operations (`gen_anon_server_kx`, `proc_anon_server_kx`,
`gen_anon_client_kx`, `proc_anon_client_kx`) and the key-material
extraction `_gnutls_generate_key`, embedded as pure Lean functions over
an explicit session-state record.

Big integers (`MPI`) are modelled as `Nat`; a nullable / releasable MPI
slot is `Option Nat` (`none` = NULL pointer or released).  Byte buffers
are `List Nat` with each entry a byte value.  The C `int data_size`
counter decremented by `DECR_LEN` is modelled as an `Int` so that the
"goes negative" checks are faithful.
-/

/-- Modelled from the spec: `_gnutls_mpi_print` serializes an MPI to its
minimal big-endian byte representation (the declaration is in the MPI
wrapper, not in the provided sources).  Little-endian accumulator with a
structural fuel so that the definition reduces in the kernel; `fuel = n`
always suffices because the byte count of `n` is at most `n`. -/
def minBytesAux : Nat → Nat → List Nat
  | 0, _ => []
  | _ + 1, 0 => []
  | fuel + 1, n + 1 => ((n + 1) % 256) :: minBytesAux fuel ((n + 1) / 256)

/-- Minimal big-endian byte representation of a natural number
(`_gnutls_mpi_print`); `minBytes 0 = []`. -/
def minBytes (n : Nat) : List Nat := (minBytesAux n n).reverse

/-- Modelled from the spec: `_gnutls_mpi_scan` parses a big-endian byte
run into a big integer; a zero-length run parses to the integer 0
("A declared field length of zero is valid and decodes to the value 0"). -/
def _gnutls_mpi_scan (l : List Nat) : Nat :=
  l.foldl (fun acc b => acc * 256 + b) 0

theorem mpi_scan_append (l : List Nat) (b : Nat) :
    _gnutls_mpi_scan (l ++ [b]) = 256 * _gnutls_mpi_scan l + b := by
  simp [_gnutls_mpi_scan, List.foldl_append, Nat.mul_comm]

theorem mpi_scan_minBytesAux (fuel n : Nat) (h : n ≤ fuel) :
    _gnutls_mpi_scan (minBytesAux fuel n).reverse = n := by
  induction fuel generalizing n with
  | zero =>
    interval_cases n
    simp [minBytesAux, _gnutls_mpi_scan]
  | succ fuel ih =>
    match n with
    | 0 => simp [minBytesAux, _gnutls_mpi_scan]
    | n + 1 =>
      have hdiv : (n + 1) / 256 ≤ fuel := by
        have : (n + 1) / 256 < n + 1 := Nat.div_lt_self (Nat.succ_pos n) (by norm_num)
        omega
      simp only [minBytesAux, List.reverse_cons, mpi_scan_append, ih _ hdiv]
      omega

/-- Scanning the minimal encoding gives back the value: the codec's
byte-exact round-trip at the level of a single big integer. -/
theorem mpi_scan_minBytes (n : Nat) : _gnutls_mpi_scan (minBytes n) = n :=
  mpi_scan_minBytesAux n n (Nat.le_refl n)

/-- Modelled from the spec: `READuint16` (from `gnutls_num.h`) reads a
2-byte big-endian unsigned integer at byte offset `i`; out-of-range
reads are given the C-indeterminate value 0 (the code never performs
them behind a passed length check, which is proved below). -/
def readUint16 (data : List Nat) (i : Nat) : Nat :=
  256 * data.getD i 0 + data.getD (i + 1) 0

/-- Modelled from the spec: the two bytes `WRITEuint16` stores - the
value reduced to 16 bits, big endian. -/
def be16 (n : Nat) : List Nat := [n / 256 % 256, n % 256]

/-- The byte run of length `n` starting at `&data[i]`. -/
def byteSlice (data : List Nat) (i n : Nat) : List Nat := (data.drop i).take n

/-- Overwriting `v.length` bytes of the buffer `l` at offset `i`
(`_gnutls_mpi_print` into `&data[i]`, `WRITEuint16` into `&data[i]`). -/
def writeBytes (l : List Nat) (i : Nat) (v : List Nat) : List Nat :=
  l.take i ++ v ++ l.drop (i + v.length)

/-- The error codes of `gnutls_errors.h` that this module returns. -/
inductive GErr where
  | MEMORY_ERROR
  | UNEXPECTED_PACKET_LENGTH
  | MPI_SCAN_FAILED
  | INVALID_REQUEST
deriving DecidableEq, Repr

/-- Authentication-method tags as compared by the module: the anonymous
exchange tag `GNUTLS_ANON` versus any other method's tag. -/
inductive CredType where
  | anon
  | other
deriving DecidableEq, Repr

/-- `ANON_SERVER_AUTH_INFO_INT` / `ANON_CLIENT_AUTH_INFO_INT`: the
negotiated-info record; only its `dh_bits` field is touched here. -/
structure AuthInfo where
  dh_bits : Nat
deriving DecidableEq, Repr

/-- The session state the module reads and mutates: the MPI slots of
`state->gnutls_key` (`none` = NULL pointer / released), the raw key
material `key.data` produced by `_gnutls_generate_key`, the `auth_info`
record with its type tag, and the authentication type of the running key
exchange (the value `gnutls_auth_get_type(state)` returns, which is
`GNUTLS_ANON` while this module's handlers run). -/
structure GState where
  client_Y : Option Nat := none
  client_g : Option Nat := none
  client_p : Option Nat := none
  dh_secret : Option Nat := none
  KEY : Option Nat := none
  key_data : Option (List Nat) := none
  auth_info : Option AuthInfo := none
  auth_info_type : CredType := .anon
  kx_auth_type : CredType := .anon
deriving DecidableEq, Repr

/-- Modelled from the spec: the external collaborators of the module.
`params` is the Parameter Source (`gnutls_get_dh_params`), deterministic
per bit size, `none` = allocation failure; `cred_bits` is the configured
bit count of the anonymous credentials (`_gnutls_get_cred`, `none` when
no credential is set); `rand` is the random private exponent the RNG
hands `gnutls_calc_dh_secret` (`none` = randomness failure); `dh_key_ok`
says whether the modular exponentiation inside `gnutls_calc_dh_key`
succeeds. -/
structure Env where
  cred_bits : Option Nat
  params : Nat → Option (Nat × Nat)
  rand : Option Nat
  dh_key_ok : Bool

/-- Modelled from the spec: the documented default modulus bit size used
when no anonymous credential is configured (`DEFAULT_BITS` in
`auth_anon.h`, which is not among the provided sources). -/
def DEFAULT_BITS : Nat := 1024

/-- The `cred == NULL ? DEFAULT_BITS : cred->dh_bits` lookup shared by
`gen_anon_server_kx` and `proc_anon_client_kx`. -/
def credBits (env : Env) : Nat := env.cred_bits.getD DEFAULT_BITS

/-- Modelled from the spec: `gcry_mpi_get_nbits` - the bit length of the
value ("the negotiated modulus bit length"). -/
def mpi_nbits (n : Nat) : Nat := if n = 0 then 0 else Nat.log2 n + 1

/-- Modelled from the spec (§4.2 Key-Pair Generator): `gnutls_calc_dh_secret`
draws a random private exponent `x` and returns it with the public value
`g ^ x mod p`; it fails (returns NULL) when the RNG fails or a parameter
is absent, and "never silently returns a partially-initialized pair". -/
def gnutls_calc_dh_secret (env : Env) (g p : Option Nat) : Option (Nat × Nat) :=
  match env.rand, g, p with
  | some x, some g, some p => some (x, g ^ x % p)
  | _, _, _ => none

/-- Modelled from the spec (§4.3 Shared-Secret Deriver): `gnutls_calc_dh_key`
computes `Y ^ x mod p`; it fails (returns NULL) when the modular
exponentiation fails or an input is absent. -/
def gnutls_calc_dh_key (env : Env) (Y x p : Option Nat) : Option Nat :=
  match Y, x, p with
  | some Y, some x, some p => if env.dh_key_ok then some (Y ^ x % p) else none
  | _, _, _ => none

/-- Outcome of one operation: the C return value (`ok v` for the
non-negative case, `error e` for a negative error code), the session
state after the call (the C code mutates it in place, including on error
paths), and the values of the local MPI variables that were allocated
during the call but neither stored in the session state nor released
when the function returned - the call's leaks. -/
structure KxOut (α : Type) where
  ret : Except GErr α
  st : GState
  leaked : List Nat

/-- `_gnutls_generate_key`: print `key->KEY` into freshly allocated
`key.data` bytes (`gnutls_secure_malloc` is assumed to succeed; its
failure is a resource condition outside this model). -/
def _gnutls_generate_key (st : GState) : GState :=
  { st with key_data := st.KEY.map minBytes }

/-- The client exchange buffer exactly as `gen_anon_client_kx` writes it:
`gnutls_malloc(n_X + 2)`, `_gnutls_mpi_print(&(*data)[2], ...)`, the
interim `(*data)[0] = 1`, then `WRITEuint16(n_X, &(*data)[0])`. -/
def clientKxBuf (X : Nat) : List Nat :=
  let mX := minBytes X
  let b0 := List.replicate (mX.length + 2) 0
  let b1 := writeBytes b0 2 mX
  let b2 := b1.set 0 1
  writeBytes b2 0 (be16 mX.length)

/-- The same construction with the interim `(*data)[0] = 1` store left
out, for comparison. -/
def clientKxBufNoSet (X : Nat) : List Nat :=
  let mX := minBytes X
  let b0 := List.replicate (mX.length + 2) 0
  let b1 := writeBytes b0 2 mX
  writeBytes b1 0 (be16 mX.length)

/-- The server exchange buffer exactly as `gen_anon_server_kx` writes it:
`gnutls_malloc(n_g + n_p + n_X + 6)`, then for each of `p`, `g`, `X` the
value printed 2 bytes past the field start followed by `WRITEuint16` of
its length at the field start. -/
def serverKxBuf (p g X : Nat) : List Nat :=
  let P := minBytes p
  let G := minBytes g
  let Xb := minBytes X
  let b0 := List.replicate (G.length + P.length + Xb.length + 6) 0
  let b1 := writeBytes b0 2 P
  let b2 := writeBytes b1 0 (be16 P.length)
  let b3 := writeBytes b2 (4 + P.length) G
  let b4 := writeBytes b3 (2 + P.length) (be16 G.length)
  let b5 := writeBytes b4 (6 + P.length + G.length) Xb
  writeBytes b5 (4 + P.length + G.length) (be16 Xb.length)

/-- One wire field: 2-byte big-endian length, then the minimal big-endian
value bytes. -/
def encodeField (v : Nat) : List Nat := be16 (minBytes v).length ++ minBytes v

/-- The server exchange message layout of the spec:
`len(modulus) | modulus | len(generator) | generator | len(public) | public`. -/
def encodeServerKx (p g X : Nat) : List Nat :=
  encodeField p ++ encodeField g ++ encodeField X

/-- Lines 103-142 of `gen_anon_server_kx`: generate the key pair, store
the private exponent in `dh_secret`, print the three-field message; `g`,
`p`, `X` are released after printing (and all four temporaries are
released on the generation-failure path of lines 104-111), only `x`
survives, stored in the session state. -/
def gen_anon_server_kx_rest (env : Env) (st : GState) (g p : Nat) : KxOut (List Nat) :=
  match gnutls_calc_dh_secret env (some g) (some p) with
  | none => ⟨.error .MEMORY_ERROR, st, []⟩
  | some (x, X) => ⟨.ok (serverKxBuf p g X), { st with dh_secret := some x }, []⟩

/-- `gen_anon_server_kx` (`auth_anon.c:68-143`).  Parameter lookup, the
`auth_info` allocation / type check of lines 90-101, then
`gen_anon_server_kx_rest`.  On the conflicting-type path the already
obtained `g` and `p` are not released (the C returns straight out of the
check), hence they appear as leaks there. -/
def gen_anon_server_kx (env : Env) (st : GState) : KxOut (List Nat) :=
  match env.params (credBits env) with
  | none => ⟨.error .MEMORY_ERROR, st, []⟩
  | some (g, p) =>
    if st.auth_info = none then
      gen_anon_server_kx_rest env
        { st with auth_info := some ⟨mpi_nbits p⟩, auth_info_type := .anon } g p
    else if st.kx_auth_type ≠ st.auth_info_type then
      ⟨.error .INVALID_REQUEST, st, [g, p]⟩
    else
      gen_anon_server_kx_rest env { st with auth_info := some ⟨mpi_nbits p⟩ } g p

/-- `gen_anon_client_kx` (`auth_anon.c:145-185`).  Generates the client
key pair from the stored parameters, writes the one-field message
(including the interim `(*data)[0] = 1` store), derives the shared key,
releases `client_Y`/`client_p`/`client_g` and `KEY`, and extracts the raw
key bytes.  The local private exponent `x` is never released, so it leaks
on every path that allocated it. -/
def gen_anon_client_kx (env : Env) (st : GState) : KxOut (List Nat) :=
  match gnutls_calc_dh_secret env st.client_g st.client_p with
  | none => ⟨.error .MEMORY_ERROR, st, []⟩
  | some (x, X) =>
    let buf := clientKxBuf X
    match gnutls_calc_dh_key env st.client_Y (some x) st.client_p with
    | none => ⟨.error .MEMORY_ERROR, st, [x]⟩
    | some K =>
      let st1 := { st with KEY := some K,
                           client_Y := none, client_p := none, client_g := none }
      let st2 := _gnutls_generate_key st1
      ⟨.ok buf, { st2 with KEY := none }, [x]⟩

/-- `proc_anon_server_kx` (`auth_anon.c:187-261`).  The `DECR_LEN`
decrements on the C `int data_size` are kept as cumulative `Int`
subtractions with their goes-negative checks, including the extra
`if (i > data_size)` comparison of line 204.  The three `_gnutls_mpi_scan`
calls store straight into the session state; in this model a scan cannot
fail (spec §4.1: any in-range byte run parses), so the
`GNUTLS_E_MPI_SCAN_FAILED` branches of lines 228-240 are not reachable.
Lines 242-254 then allocate or check `auth_info`. -/
def proc_anon_server_kx (st : GState) (data : List Nat) (dataSize : Int) : KxOut Unit :=
  if dataSize - 2 < 0 then ⟨.error .UNEXPECTED_PACKET_LENGTH, st, []⟩ else
  let n_p := readUint16 data 0
  if dataSize - 2 - n_p < 0 then ⟨.error .UNEXPECTED_PACKET_LENGTH, st, []⟩ else
  if (2 + n_p : Int) > dataSize - 2 - n_p then ⟨.error .UNEXPECTED_PACKET_LENGTH, st, []⟩ else
  if dataSize - 2 - n_p - 2 < 0 then ⟨.error .UNEXPECTED_PACKET_LENGTH, st, []⟩ else
  let n_g := readUint16 data (2 + n_p)
  if dataSize - 2 - n_p - 2 - n_g < 0 then ⟨.error .UNEXPECTED_PACKET_LENGTH, st, []⟩ else
  if dataSize - 2 - n_p - 2 - n_g - 2 < 0 then ⟨.error .UNEXPECTED_PACKET_LENGTH, st, []⟩ else
  let n_Y := readUint16 data (4 + n_p + n_g)
  if dataSize - 2 - n_p - 2 - n_g - 2 - n_Y < 0 then ⟨.error .UNEXPECTED_PACKET_LENGTH, st, []⟩ else
  let Y := _gnutls_mpi_scan (byteSlice data (6 + n_p + n_g) n_Y)
  let g := _gnutls_mpi_scan (byteSlice data (4 + n_p) n_g)
  let p := _gnutls_mpi_scan (byteSlice data 2 n_p)
  let st1 := { st with client_Y := some Y, client_g := some g, client_p := some p }
  if st.auth_info = none then
    ⟨.ok (), { st1 with auth_info := some ⟨mpi_nbits p⟩, auth_info_type := .anon }, []⟩
  else if st.kx_auth_type ≠ st.auth_info_type then
    ⟨.error .INVALID_REQUEST, st1, []⟩
  else
    ⟨.ok (), { st1 with auth_info := some ⟨mpi_nbits p⟩, auth_info_type := .anon }, []⟩

/-- `proc_anon_client_kx` (`auth_anon.c:263-310`).  Decodes the client's
public value into `client_Y`, regenerates the parameters, derives the
shared key with the stored `dh_secret` and extracts the raw key bytes.
On the failed-derivation path (line 294) the regenerated `p` and `g` are
not released and `client_Y`/`dh_secret` stay stored. -/
def proc_anon_client_kx (env : Env) (st : GState) (data : List Nat) (dataSize : Int) :
    KxOut Unit :=
  if dataSize - 2 < 0 then ⟨.error .UNEXPECTED_PACKET_LENGTH, st, []⟩ else
  let n_Y := readUint16 data 0
  if dataSize - 2 - n_Y < 0 then ⟨.error .UNEXPECTED_PACKET_LENGTH, st, []⟩ else
  let Y := _gnutls_mpi_scan (byteSlice data 2 n_Y)
  let st1 := { st with client_Y := some Y }
  match env.params (credBits env) with
  | none => ⟨.error .MEMORY_ERROR, st1, []⟩
  | some (g, p) =>
    match gnutls_calc_dh_key env st1.client_Y st1.dh_secret (some p) with
    | none => ⟨.error .MEMORY_ERROR, st1, [g, p]⟩
    | some K =>
      let st2 := { st1 with KEY := some K, client_Y := none, dh_secret := none }
      let st3 := _gnutls_generate_key st2
      ⟨.ok (), { st3 with KEY := none }, []⟩

theorem drop_left_of (l₁ l₂ : List Nat) (n : Nat) (h : l₁.length = n) :
    (l₁ ++ l₂).drop n = l₂ := by
  subst h
  exact List.drop_left _ _

/-- Overwriting the middle segment `z` of `x ++ z ++ y` with an
equal-length run `v`. -/
theorem writeBytes_over (x z y : List Nat) {l v : List Nat} {i : Nat}
    (hl : l = x ++ z ++ y) (hi : x.length = i) (hz : z.length = v.length) :
    writeBytes l i v = x ++ v ++ y := by
  subst hl
  subst hi
  unfold writeBytes
  rw [List.append_assoc x z y, List.take_left, ← hz, ← List.drop_drop,
    List.drop_left, List.drop_left]

@[simp] theorem be16_length (n : Nat) : (be16 n).length = 2 := rfl

theorem replicate_split2 (n a b : Nat) (h : n = a + b) :
    List.replicate n (0 : Nat) = List.replicate a 0 ++ List.replicate b 0 := by
  subst h
  rw [List.replicate_add]

theorem replicate_split3 (n a b c : Nat) (h : n = a + b + c) :
    List.replicate n (0 : Nat)
      = List.replicate a 0 ++ List.replicate b 0 ++ List.replicate c 0 := by
  subst h
  rw [← List.replicate_add, ← List.replicate_add]

theorem clientKxBuf_eq (X : Nat) :
    clientKxBuf X = be16 (minBytes X).length ++ minBytes X := by
  unfold clientKxBuf
  dsimp only
  have s1 : writeBytes (List.replicate ((minBytes X).length + 2) 0) 2 (minBytes X)
      = List.replicate 2 0 ++ minBytes X ++ [] :=
    writeBytes_over _ (List.replicate (minBytes X).length 0) _
      (by rw [replicate_split2 ((minBytes X).length + 2) 2 (minBytes X).length (by omega)]; simp)
      (by simp) (by simp)
  rw [s1]
  simp only [List.append_nil, List.append_assoc, List.nil_append]
  have h2 : List.replicate 2 (0 : Nat) ++ minBytes X = 0 :: 0 :: minBytes X := by
    simp [List.replicate]
  rw [h2]
  have s3 : writeBytes ((1 : Nat) :: 0 :: minBytes X) 0 (be16 (minBytes X).length)
      = [] ++ be16 (minBytes X).length ++ minBytes X :=
    writeBytes_over [] [1, 0] _ (by simp) rfl (by simp)
  simp only [List.set_cons_zero, s3, List.nil_append]

theorem clientKxBufNoSet_eq (X : Nat) : clientKxBufNoSet X = clientKxBuf X := by
  rw [clientKxBuf_eq]
  unfold clientKxBufNoSet
  dsimp only
  have s1 : writeBytes (List.replicate ((minBytes X).length + 2) 0) 2 (minBytes X)
      = List.replicate 2 0 ++ minBytes X ++ [] :=
    writeBytes_over _ (List.replicate (minBytes X).length 0) _
      (by rw [replicate_split2 ((minBytes X).length + 2) 2 (minBytes X).length (by omega)]; simp)
      (by simp) (by simp)
  rw [s1]
  simp only [List.append_nil, List.append_assoc, List.nil_append]
  have h2 : List.replicate 2 (0 : Nat) ++ minBytes X = 0 :: 0 :: minBytes X := by
    simp [List.replicate]
  rw [h2]
  have s3 : writeBytes ((0 : Nat) :: 0 :: minBytes X) 0 (be16 (minBytes X).length)
      = [] ++ be16 (minBytes X).length ++ minBytes X :=
    writeBytes_over [] [0, 0] _ (by simp) rfl (by simp)
  simp only [s3, List.nil_append]

theorem serverKxBuf_eq (p g X : Nat) : serverKxBuf p g X = encodeServerKx p g X := by
  unfold serverKxBuf encodeServerKx encodeField
  dsimp only
  have s1 : writeBytes
      (List.replicate ((minBytes g).length + (minBytes p).length + (minBytes X).length + 6) 0)
      2 (minBytes p)
      = List.replicate 2 0 ++ minBytes p
        ++ List.replicate ((minBytes g).length + (minBytes X).length + 4) 0 :=
    writeBytes_over _ (List.replicate (minBytes p).length 0) _
      (replicate_split3 _ 2 (minBytes p).length _ (by omega)) (by simp) (by simp)
  rw [s1]
  simp only [List.append_assoc]
  have s2 : writeBytes
      (List.replicate 2 0 ++ (minBytes p
        ++ List.replicate ((minBytes g).length + (minBytes X).length + 4) 0))
      0 (be16 (minBytes p).length)
      = [] ++ be16 (minBytes p).length
        ++ (minBytes p ++ List.replicate ((minBytes g).length + (minBytes X).length + 4) 0) :=
    writeBytes_over [] (List.replicate 2 0) _ (by simp) rfl (by simp)
  rw [s2]
  simp only [List.append_assoc, List.nil_append]
  have s3 : writeBytes
      (be16 (minBytes p).length ++ (minBytes p
        ++ List.replicate ((minBytes g).length + (minBytes X).length + 4) 0))
      (4 + (minBytes p).length) (minBytes g)
      = (be16 (minBytes p).length ++ minBytes p ++ List.replicate 2 0) ++ minBytes g
        ++ List.replicate ((minBytes X).length + 2) 0 :=
    writeBytes_over _ (List.replicate (minBytes g).length 0) _
      (by rw [replicate_split3 ((minBytes g).length + (minBytes X).length + 4) 2
                (minBytes g).length ((minBytes X).length + 2) (by omega)]
          simp [List.append_assoc])
      (by simp only [List.length_append, List.length_replicate, be16_length]; omega)
      (by simp)
  rw [s3]
  simp only [List.append_assoc]
  have s4 : writeBytes
      (be16 (minBytes p).length ++ (minBytes p ++ (List.replicate 2 0 ++ (minBytes g
        ++ List.replicate ((minBytes X).length + 2) 0))))
      (2 + (minBytes p).length) (be16 (minBytes g).length)
      = (be16 (minBytes p).length ++ minBytes p) ++ be16 (minBytes g).length
        ++ (minBytes g ++ List.replicate ((minBytes X).length + 2) 0) :=
    writeBytes_over _ (List.replicate 2 0) _
      (by simp [List.append_assoc])
      (by simp only [List.length_append, be16_length])
      (by simp)
  rw [s4]
  simp only [List.append_assoc]
  have s5 : writeBytes
      (be16 (minBytes p).length ++ (minBytes p ++ (be16 (minBytes g).length ++ (minBytes g
        ++ List.replicate ((minBytes X).length + 2) 0))))
      (6 + (minBytes p).length + (minBytes g).length) (minBytes X)
      = (be16 (minBytes p).length ++ minBytes p ++ be16 (minBytes g).length ++ minBytes g
          ++ List.replicate 2 0) ++ minBytes X ++ [] :=
    writeBytes_over _ (List.replicate (minBytes X).length 0) _
      (by rw [replicate_split2 ((minBytes X).length + 2) 2 (minBytes X).length (by omega)]
          simp [List.append_assoc])
      (by simp only [List.length_append, List.length_replicate, be16_length]; omega)
      (by simp)
  rw [s5]
  simp only [List.append_assoc, List.append_nil]
  have s6 : writeBytes
      (be16 (minBytes p).length ++ (minBytes p ++ (be16 (minBytes g).length ++ (minBytes g
        ++ (List.replicate 2 0 ++ minBytes X)))))
      (4 + (minBytes p).length + (minBytes g).length) (be16 (minBytes X).length)
      = (be16 (minBytes p).length ++ minBytes p ++ be16 (minBytes g).length ++ minBytes g)
        ++ be16 (minBytes X).length ++ minBytes X :=
    writeBytes_over _ (List.replicate 2 0) _
      (by simp [List.append_assoc])
      (by simp only [List.length_append, be16_length]; omega)
      (by simp)
  rw [s6]
  simp [List.append_assoc]

theorem getD_take (L : List Nat) (n i : Nat) (h : i < n) :
    (L.take n).getD i 0 = L.getD i 0 := by
  simp [List.getD_eq_getElem?_getD, List.getElem?_take, h]

theorem readUint16_take (L : List Nat) (n i : Nat) (h : i + 1 < n) :
    readUint16 (L.take n) i = readUint16 L i := by
  unfold readUint16
  rw [getD_take L n i (by omega), getD_take L n (i + 1) (by omega)]

theorem byteSlice_take (L : List Nat) (n i m : Nat) (h : i + m ≤ n) :
    byteSlice (L.take n) i m = byteSlice L i m := by
  unfold byteSlice
  rw [List.drop_take, List.take_take, Nat.min_eq_left (by omega)]

theorem readUint16_be16 (n : Nat) (rest : List Nat) (hn : n < 65536) :
    readUint16 (be16 n ++ rest) 0 = n := by
  simp only [readUint16, be16, List.cons_append, List.nil_append,
    List.getD_cons_zero, List.getD_cons_succ]
  omega

theorem readUint16_at (a rest : List Nat) (n i : Nat) (h : a.length = i)
    (hn : n < 65536) : readUint16 (a ++ (be16 n ++ rest)) i = n := by
  subst h
  unfold readUint16
  rw [List.getD_append_right a (be16 n ++ rest) 0 a.length (Nat.le_refl _),
    List.getD_append_right a (be16 n ++ rest) 0 (a.length + 1) (by omega),
    Nat.sub_self]
  have h1 : a.length + 1 - a.length = 1 := by omega
  rw [h1]
  simp only [be16, List.cons_append, List.getD_cons_zero, List.getD_cons_succ,
    List.nil_append]
  omega

theorem byteSlice_at (a v rest : List Nat) (i n : Nat) (hi : a.length = i)
    (hn : v.length = n) : byteSlice (a ++ (v ++ rest)) i n = v := by
  subst hi
  subst hn
  unfold byteSlice
  rw [List.drop_left, List.take_left]

/-- The message reassociated for reading the first field. -/
theorem encodeServerKx_assoc (p g X : Nat) :
    encodeServerKx p g X
      = be16 (minBytes p).length ++ (minBytes p ++ (be16 (minBytes g).length
        ++ (minBytes g ++ (be16 (minBytes X).length ++ minBytes X)))) := by
  simp [encodeServerKx, encodeField, List.append_assoc]

theorem encodeServerKx_length (p g X : Nat) :
    (encodeServerKx p g X).length
      = (minBytes p).length + (minBytes g).length + (minBytes X).length + 6 := by
  simp only [encodeServerKx, encodeField, List.length_append, be16_length]
  omega

/-- Decoding an encoded server exchange message at its exact size: the
length checks pass (given the line-204 condition `hfit`), the three
values are recovered exactly, and the call ends in the `auth_info`
handling of lines 242-254. -/
theorem proc_server_encode_core (st : GState) (p g X : Nat)
    (hnp : (minBytes p).length < 65536) (hng : (minBytes g).length < 65536)
    (hnX : (minBytes X).length < 65536)
    (hfit : (minBytes p).length ≤ (minBytes g).length + (minBytes X).length + 2) :
    proc_anon_server_kx st (encodeServerKx p g X) ((encodeServerKx p g X).length : Int)
      = if st.auth_info = none then
          ⟨.ok (), { st with
                     client_Y := some X, client_g := some g, client_p := some p,
                     auth_info := some ⟨mpi_nbits p⟩, auth_info_type := .anon }, []⟩
        else if st.kx_auth_type ≠ st.auth_info_type then
          ⟨.error .INVALID_REQUEST,
            { st with client_Y := some X, client_g := some g, client_p := some p }, []⟩
        else
          ⟨.ok (), { st with
                     client_Y := some X, client_g := some g, client_p := some p,
                     auth_info := some ⟨mpi_nbits p⟩, auth_info_type := .anon }, []⟩ := by
  have r1 : readUint16 (encodeServerKx p g X) 0 = (minBytes p).length := by
    rw [encodeServerKx_assoc]
    exact readUint16_be16 _ _ hnp
  have r2 : readUint16 (encodeServerKx p g X) (2 + (minBytes p).length)
      = (minBytes g).length := by
    rw [show encodeServerKx p g X
        = (be16 (minBytes p).length ++ minBytes p)
          ++ (be16 (minBytes g).length
            ++ (minBytes g ++ (be16 (minBytes X).length ++ minBytes X))) from by
      simp [encodeServerKx, encodeField, List.append_assoc]]
    exact readUint16_at _ _ _ _ (by simp [Nat.add_comm]) hng
  have r3 : readUint16 (encodeServerKx p g X)
      (4 + (minBytes p).length + (minBytes g).length) = (minBytes X).length := by
    rw [show encodeServerKx p g X
        = (encodeField p ++ encodeField g)
          ++ (be16 (minBytes X).length ++ minBytes X) from by
      simp [encodeServerKx, encodeField, List.append_assoc]]
    refine readUint16_at _ _ _ _ ?_ hnX
    simp only [encodeField, List.length_append, be16_length]
    omega
  have sY : byteSlice (encodeServerKx p g X)
      (6 + (minBytes p).length + (minBytes g).length) (minBytes X).length
      = minBytes X := by
    rw [show encodeServerKx p g X
        = (encodeField p ++ encodeField g ++ be16 (minBytes X).length)
          ++ (minBytes X ++ []) from by
      simp [encodeServerKx, encodeField, List.append_assoc]]
    refine byteSlice_at _ _ _ _ _ ?_ rfl
    simp only [encodeField, List.length_append, be16_length]
    omega
  have sg : byteSlice (encodeServerKx p g X) (4 + (minBytes p).length)
      (minBytes g).length = minBytes g := by
    rw [show encodeServerKx p g X
        = (encodeField p ++ be16 (minBytes g).length)
          ++ (minBytes g ++ (be16 (minBytes X).length ++ minBytes X)) from by
      simp [encodeServerKx, encodeField, List.append_assoc]]
    refine byteSlice_at _ _ _ _ _ ?_ rfl
    simp only [encodeField, List.length_append, be16_length]
    omega
  have sp : byteSlice (encodeServerKx p g X) 2 (minBytes p).length = minBytes p := by
    rw [encodeServerKx_assoc]
    exact byteSlice_at _ _ _ _ _ rfl rfl
  rw [encodeServerKx_length]
  unfold proc_anon_server_kx
  rw [r1]
  rw [if_neg (by push_cast; omega)]
  rw [if_neg (by push_cast; omega)]
  rw [if_neg (by push_cast; omega)]
  rw [if_neg (by push_cast; omega)]
  rw [r2]
  rw [if_neg (by push_cast; omega)]
  rw [if_neg (by push_cast; omega)]
  rw [r3]
  rw [if_neg (by push_cast; omega)]
  rw [sY, sg, sp, mpi_scan_minBytes, mpi_scan_minBytes, mpi_scan_minBytes]

/-- `proc_anon_server_kx` depends only on the first `dataSize` bytes of
the buffer: running it on the truncated buffer gives the identical
outcome.  Every `readUint16` and every scanned byte run lies below an
offset that a previously passed `DECR_LEN` check bounds by `dataSize`,
so no byte at or beyond `dataSize` is ever read. -/
theorem proc_server_kx_take (st : GState) (L : List Nat) (n : Nat) :
    proc_anon_server_kx st (L.take n) (n : Int) = proc_anon_server_kx st L (n : Int) := by
  by_cases hn : L.length ≤ n
  · rw [List.take_of_length_le hn]
  unfold proc_anon_server_kx
  by_cases h1 : (n : Int) - 2 < 0
  · rw [if_pos h1, if_pos h1]
  rw [if_neg h1, if_neg h1]
  rw [readUint16_take L n 0 (by omega)]
  by_cases h2 : (n : Int) - 2 - (readUint16 L 0 : Nat) < 0
  · rw [if_pos h2, if_pos h2]
  rw [if_neg h2, if_neg h2]
  by_cases h3 : (2 : Int) + (readUint16 L 0 : Nat) > (n : Int) - 2 - (readUint16 L 0 : Nat)
  · rw [if_pos h3, if_pos h3]
  rw [if_neg h3, if_neg h3]
  by_cases h4 : (n : Int) - 2 - (readUint16 L 0 : Nat) - 2 < 0
  · rw [if_pos h4, if_pos h4]
  rw [if_neg h4, if_neg h4]
  rw [readUint16_take L n (2 + readUint16 L 0) (by omega)]
  by_cases h5 : (n : Int) - 2 - (readUint16 L 0 : Nat) - 2
      - (readUint16 L (2 + readUint16 L 0) : Nat) < 0
  · rw [if_pos h5, if_pos h5]
  rw [if_neg h5, if_neg h5]
  by_cases h6 : (n : Int) - 2 - (readUint16 L 0 : Nat) - 2
      - (readUint16 L (2 + readUint16 L 0) : Nat) - 2 < 0
  · rw [if_pos h6, if_pos h6]
  rw [if_neg h6, if_neg h6]
  rw [readUint16_take L n (4 + readUint16 L 0 + readUint16 L (2 + readUint16 L 0))
    (by omega)]
  by_cases h7 : (n : Int) - 2 - (readUint16 L 0 : Nat) - 2
      - (readUint16 L (2 + readUint16 L 0) : Nat) - 2
      - (readUint16 L (4 + readUint16 L 0 + readUint16 L (2 + readUint16 L 0)) : Nat) < 0
  · rw [if_pos h7, if_pos h7]
  rw [if_neg h7, if_neg h7]
  rw [byteSlice_take L n _ _ (by omega), byteSlice_take L n _ _ (by omega),
    byteSlice_take L n 2 (readUint16 L 0) (by omega)]

theorem readUint16_encode_p (p g X : Nat) (hnp : (minBytes p).length < 65536) :
    readUint16 (encodeServerKx p g X) 0 = (minBytes p).length := by
  rw [encodeServerKx_assoc]
  exact readUint16_be16 _ _ hnp

theorem readUint16_encode_g (p g X : Nat) (hng : (minBytes g).length < 65536) :
    readUint16 (encodeServerKx p g X) (2 + (minBytes p).length)
      = (minBytes g).length := by
  rw [show encodeServerKx p g X
      = (be16 (minBytes p).length ++ minBytes p)
        ++ (be16 (minBytes g).length
          ++ (minBytes g ++ (be16 (minBytes X).length ++ minBytes X))) from by
    simp [encodeServerKx, encodeField, List.append_assoc]]
  exact readUint16_at _ _ _ _ (by simp [Nat.add_comm]) hng

theorem readUint16_encode_X (p g X : Nat) (hnX : (minBytes X).length < 65536) :
    readUint16 (encodeServerKx p g X)
      (4 + (minBytes p).length + (minBytes g).length) = (minBytes X).length := by
  rw [show encodeServerKx p g X
      = (encodeField p ++ encodeField g)
        ++ (be16 (minBytes X).length ++ minBytes X) from by
    simp [encodeServerKx, encodeField, List.append_assoc]]
  refine readUint16_at _ _ _ _ ?_ hnX
  simp only [encodeField, List.length_append, be16_length]
  omega

/-- Running `proc_anon_server_kx` on a well-formed server exchange
message with any `data_size` strictly smaller than the full length fails
with `GNUTLS_E_UNEXPECTED_PACKET_LENGTH` and leaves the state alone:
whichever `DECR_LEN` (or the line-204 comparison) the shortage reaches
first fires before anything is stored. -/
theorem proc_server_encode_truncated (st : GState) (p g X : Nat) (k : Nat)
    (hnp : (minBytes p).length < 65536) (hng : (minBytes g).length < 65536)
    (hnX : (minBytes X).length < 65536)
    (hk : k < (minBytes p).length + (minBytes g).length + (minBytes X).length + 6) :
    proc_anon_server_kx st (encodeServerKx p g X) (k : Int)
      = ⟨.error .UNEXPECTED_PACKET_LENGTH, st, []⟩ := by
  have r1 := readUint16_encode_p p g X hnp
  have r2 := readUint16_encode_g p g X hng
  have r3 := readUint16_encode_X p g X hnX
  unfold proc_anon_server_kx
  rw [r1]
  by_cases h1 : (k : Int) - 2 < 0
  · rw [if_pos h1]
  rw [if_neg h1]
  by_cases h2 : (k : Int) - 2 - ((minBytes p).length : Nat) < 0
  · rw [if_pos h2]
  rw [if_neg h2]
  by_cases h3 : (2 : Int) + ((minBytes p).length : Nat)
      > (k : Int) - 2 - ((minBytes p).length : Nat)
  · rw [if_pos h3]
  rw [if_neg h3]
  rw [if_neg (show ¬((k : Int) - 2 - ((minBytes p).length : Nat) - 2 < 0) by omega)]
  rw [r2]
  by_cases h5 : (k : Int) - 2 - ((minBytes p).length : Nat) - 2
      - ((minBytes g).length : Nat) < 0
  · rw [if_pos h5]
  rw [if_neg h5]
  by_cases h6 : (k : Int) - 2 - ((minBytes p).length : Nat) - 2
      - ((minBytes g).length : Nat) - 2 < 0
  · rw [if_pos h6]
  rw [if_neg h6]
  rw [r3]
  rw [if_pos (show (k : Int) - 2 - ((minBytes p).length : Nat) - 2
      - ((minBytes g).length : Nat) - 2 - ((minBytes X).length : Nat) < 0 by omega)]

/-- Decoding the one-field client exchange message at its exact size:
the two length checks pass, `client_Y` receives the encoded value, and
the call continues with parameter regeneration and key derivation. -/
theorem proc_client_kx_decode (env : Env) (st : GState) (X : Nat)
    (hnX : (minBytes X).length < 65536) :
    proc_anon_client_kx env st (clientKxBuf X) ((clientKxBuf X).length : Int)
      = match env.params (credBits env) with
        | none => ⟨.error .MEMORY_ERROR, { st with client_Y := some X }, []⟩
        | some (g, p) =>
          match gnutls_calc_dh_key env (some X) st.dh_secret (some p) with
          | none => ⟨.error .MEMORY_ERROR, { st with client_Y := some X }, [g, p]⟩
          | some K =>
            ⟨.ok (), { st with
                       client_Y := none, dh_secret := none,
                       KEY := none, key_data := some (minBytes K) }, []⟩ := by
  have hlen : (clientKxBuf X).length = (minBytes X).length + 2 := by
    rw [clientKxBuf_eq]
    simp only [List.length_append, be16_length]
    omega
  have r1 : readUint16 (clientKxBuf X) 0 = (minBytes X).length := by
    rw [clientKxBuf_eq]
    exact readUint16_be16 _ _ hnX
  have s1 : byteSlice (clientKxBuf X) 2 (minBytes X).length = minBytes X := by
    rw [clientKxBuf_eq, show be16 (minBytes X).length ++ minBytes X
        = be16 (minBytes X).length ++ (minBytes X ++ []) from by simp]
    exact byteSlice_at _ _ _ _ _ rfl rfl
  rw [hlen]
  unfold proc_anon_client_kx
  rw [r1]
  rw [if_neg (by push_cast; omega)]
  rw [if_neg (by push_cast; omega)]
  rw [s1, mpi_scan_minBytes]
  rfl

/-- `gen_anon_client_kx` on a state holding received parameters, with
working randomness and derivation: the message is the written client
buffer, the three stored parameters and `KEY` are released, the raw key
bytes are extracted, and the local exponent `x` leaks. -/
theorem gen_client_kx_ok (env : Env) (st : GState) (g p x Y : Nat)
    (hg : st.client_g = some g) (hp : st.client_p = some p)
    (hY : st.client_Y = some Y) (hx : env.rand = some x)
    (hok : env.dh_key_ok = true) :
    gen_anon_client_kx env st
      = ⟨.ok (clientKxBuf (g ^ x % p)),
          { st with
            client_Y := none, client_p := none, client_g := none,
            KEY := none, key_data := some (minBytes (Y ^ x % p)) }, [x]⟩ := by
  unfold gen_anon_client_kx
  rw [hg, hp, hY]
  simp only [gnutls_calc_dh_secret, gnutls_calc_dh_key, hx, hok, if_true]
  rfl

/-- `gen_anon_server_kx` on a fresh session with parameters and
randomness available: `auth_info` is allocated with the modulus bit
length, the private exponent is stored, and the three-field message is
produced. -/
theorem gen_server_kx_ok (env : Env) (st : GState) (g p x : Nat)
    (hparams : env.params (credBits env) = some (g, p))
    (hx : env.rand = some x) (hA : st.auth_info = none) :
    gen_anon_server_kx env st
      = ⟨.ok (serverKxBuf p g (g ^ x % p)),
          { st with
            auth_info := some ⟨mpi_nbits p⟩, auth_info_type := .anon,
            dh_secret := some x }, []⟩ := by
  unfold gen_anon_server_kx
  rw [hparams]
  dsimp only
  rw [if_pos hA]
  unfold gen_anon_server_kx_rest
  simp only [gnutls_calc_dh_secret, hx]

/-- C2 (counterexample): a valid modulus, generator and public value
whose encoded message `proc_anon_server_kx` rejects at its exact total
size: `p = 2^32` (5 value bytes), `g = 2`, `X = 3` - the line-204
comparison fires because the modulus field outweighs the rest of the
message. -/
theorem C2_roundtrip_counterexample :
    proc_anon_server_kx {} (encodeServerKx (2 ^ 32) 2 3)
        ((encodeServerKx (2 ^ 32) 2 3).length : Int)
      = ⟨.error .UNEXPECTED_PACKET_LENGTH, {}, []⟩ := by
  rfl

/-- C2 (amended): encoding any valid modulus, generator and public value
as the three-field server exchange message and decoding it at its exact
total size succeeds with the three original values recovered, provided
also the modulus field does not exceed the generator and public-value
fields together by more than 2 bytes (otherwise the line-204 check
rejects the message). -/
theorem C2_roundtrip_amended (st : GState) (p g X : Nat)
    (hnp : (minBytes p).length < 65536) (hng : (minBytes g).length < 65536)
    (hnX : (minBytes X).length < 65536)
    (hfit : (minBytes p).length ≤ (minBytes g).length + (minBytes X).length + 2)
    (hA : st.auth_info = none) :
    (proc_anon_server_kx st (encodeServerKx p g X)
        ((encodeServerKx p g X).length : Int)).ret = .ok () ∧
    (proc_anon_server_kx st (encodeServerKx p g X)
        ((encodeServerKx p g X).length : Int)).st.client_p = some p ∧
    (proc_anon_server_kx st (encodeServerKx p g X)
        ((encodeServerKx p g X).length : Int)).st.client_g = some g ∧
    (proc_anon_server_kx st (encodeServerKx p g X)
        ((encodeServerKx p g X).length : Int)).st.client_Y = some X := by
  rw [proc_server_encode_core st p g X hnp hng hnX hfit, if_pos hA]
  exact ⟨rfl, rfl, rfl, rfl⟩

theorem C2_roundtrip_amended_witness :
    (proc_anon_server_kx {} (encodeServerKx 23 5 8)
        ((encodeServerKx 23 5 8).length : Int)).ret = .ok () ∧
    (proc_anon_server_kx {} (encodeServerKx 23 5 8)
        ((encodeServerKx 23 5 8).length : Int)).st.client_p = some 23 ∧
    (proc_anon_server_kx {} (encodeServerKx 23 5 8)
        ((encodeServerKx 23 5 8).length : Int)).st.client_g = some 5 ∧
    (proc_anon_server_kx {} (encodeServerKx 23 5 8)
        ((encodeServerKx 23 5 8).length : Int)).st.client_Y = some 8 :=
  C2_roundtrip_amended {} 23 5 8 (by decide) (by decide) (by decide) (by decide) rfl

/-- C3: cutting a well-formed server exchange message at any byte
boundary before its end makes `proc_anon_server_kx` fail with
`GNUTLS_E_UNEXPECTED_PACKET_LENGTH` without touching the state; and the
call's outcome depends only on the first `data_size` bytes of the
buffer (every field read is behind a passed remaining-length check), so
no byte at or beyond `data_size` is ever read. -/
theorem C3_truncation_safety :
    (∀ (st : GState) (p g X k : Nat),
      (minBytes p).length < 65536 → (minBytes g).length < 65536 →
      (minBytes X).length < 65536 → k < (encodeServerKx p g X).length →
      proc_anon_server_kx st ((encodeServerKx p g X).take k) (k : Int)
        = ⟨.error .UNEXPECTED_PACKET_LENGTH, st, []⟩) ∧
    (∀ (st : GState) (L : List Nat) (n : Nat),
      proc_anon_server_kx st (L.take n) (n : Int)
        = proc_anon_server_kx st L (n : Int)) := by
  constructor
  · intro st p g X k hnp hng hnX hk
    rw [encodeServerKx_length] at hk
    rw [proc_server_kx_take]
    exact proc_server_encode_truncated st p g X k hnp hng hnX hk
  · exact proc_server_kx_take

theorem C3_truncation_safety_witness :
    proc_anon_server_kx {} ((encodeServerKx 23 5 8).take 3) (3 : Int)
        = ⟨.error .UNEXPECTED_PACKET_LENGTH, {}, []⟩ ∧
    proc_anon_server_kx {} (([7, 7, 7] : List Nat).take 2) (2 : Int)
        = proc_anon_server_kx {} [7, 7, 7] (2 : Int) :=
  ⟨C3_truncation_safety.1 {} 23 5 8 3 (by decide) (by decide) (by decide) (by decide),
   C3_truncation_safety.2 {} [7, 7, 7] 2⟩

/-- C10: the line-204 comparison `i > data_size` - with `i = 2 + n_p`
and `data_size` already decremented by `2 + n_p` - rejects with
`GNUTLS_E_UNEXPECTED_PACKET_LENGTH` every complete well-formed server
exchange message whose modulus field plus length prefix outweighs the
rest of the message (`n_p > n_g + n_X + 2`). -/
theorem C10_oversized_modulus_rejected (st : GState) (p g X : Nat)
    (hnp : (minBytes p).length < 65536)
    (hbig : (minBytes p).length > (minBytes g).length + (minBytes X).length + 2) :
    proc_anon_server_kx st (encodeServerKx p g X)
        ((encodeServerKx p g X).length : Int)
      = ⟨.error .UNEXPECTED_PACKET_LENGTH, st, []⟩ := by
  have r1 := readUint16_encode_p p g X hnp
  rw [encodeServerKx_length]
  unfold proc_anon_server_kx
  rw [r1]
  rw [if_neg (show ¬(((((minBytes p).length + (minBytes g).length
      + (minBytes X).length + 6 : Nat)) : Int) - 2 < 0) by push_cast; omega)]
  rw [if_neg (show ¬(((((minBytes p).length + (minBytes g).length
      + (minBytes X).length + 6 : Nat)) : Int) - 2 - ((minBytes p).length : Nat) < 0) by
    push_cast; omega)]
  rw [if_pos (show (2 : Int) + ((minBytes p).length : Nat)
      > ((((minBytes p).length + (minBytes g).length
        + (minBytes X).length + 6 : Nat)) : Int) - 2 - ((minBytes p).length : Nat) by
    push_cast; omega)]

theorem C10_oversized_modulus_rejected_witness :
    proc_anon_server_kx {} (encodeServerKx (2 ^ 32) 2 3)
        ((encodeServerKx (2 ^ 32) 2 3).length : Int)
      = ⟨.error .UNEXPECTED_PACKET_LENGTH, {}, []⟩ :=
  C10_oversized_modulus_rejected {} (2 ^ 32) 2 3 (by decide) (by decide)

/-- C4 (counterexample): on the invalid-request failure path of
`proc_anon_server_kx` (conflicting `auth_info_type`), the session state
is not left as it was: the decoded public value stays stored in
`client_Y`, which was `none` before the call. -/
theorem C4_partial_store_counterexample :
    (proc_anon_server_kx { auth_info := some ⟨0⟩, auth_info_type := CredType.other }
        (encodeServerKx 23 5 8) ((encodeServerKx 23 5 8).length : Int)).ret
      = .error .INVALID_REQUEST ∧
    (proc_anon_server_kx { auth_info := some ⟨0⟩, auth_info_type := CredType.other }
        (encodeServerKx 23 5 8) ((encodeServerKx 23 5 8).length : Int)).st.client_Y
      = some 8 ∧
    ({ auth_info := some ⟨0⟩, auth_info_type := CredType.other } : GState).client_Y
      = none :=
  ⟨rfl, rfl, rfl⟩

/-- Exhaustive outcomes of `proc_anon_server_kx`: a truncation error
that leaves the state alone, an invalid-request error after the three
scans stored, or success with the scans stored and `auth_info` set. -/
theorem proc_server_kx_cases (st : GState) (data : List Nat) (ds : Int) :
    proc_anon_server_kx st data ds = ⟨.error .UNEXPECTED_PACKET_LENGTH, st, []⟩
    ∨ (∃ Y g p, proc_anon_server_kx st data ds
        = ⟨.error .INVALID_REQUEST,
            { st with client_Y := some Y, client_g := some g, client_p := some p }, []⟩)
    ∨ (∃ Y g p, proc_anon_server_kx st data ds
        = ⟨.ok (), { st with
            client_Y := some Y, client_g := some g, client_p := some p,
            auth_info := some ⟨mpi_nbits p⟩, auth_info_type := .anon }, []⟩) := by
  unfold proc_anon_server_kx
  by_cases h1 : ds - 2 < 0
  · left
    rw [if_pos h1]
  rw [if_neg h1]
  by_cases h2 : ds - 2 - (readUint16 data 0 : Nat) < 0
  · left
    rw [if_pos h2]
  rw [if_neg h2]
  by_cases h3 : (2 : Int) + (readUint16 data 0 : Nat) > ds - 2 - (readUint16 data 0 : Nat)
  · left
    rw [if_pos h3]
  rw [if_neg h3]
  by_cases h4 : ds - 2 - (readUint16 data 0 : Nat) - 2 < 0
  · left
    rw [if_pos h4]
  rw [if_neg h4]
  by_cases h5 : ds - 2 - (readUint16 data 0 : Nat) - 2
      - (readUint16 data (2 + readUint16 data 0) : Nat) < 0
  · left
    rw [if_pos h5]
  rw [if_neg h5]
  by_cases h6 : ds - 2 - (readUint16 data 0 : Nat) - 2
      - (readUint16 data (2 + readUint16 data 0) : Nat) - 2 < 0
  · left
    rw [if_pos h6]
  rw [if_neg h6]
  by_cases h7 : ds - 2 - (readUint16 data 0 : Nat) - 2
      - (readUint16 data (2 + readUint16 data 0) : Nat) - 2
      - (readUint16 data (4 + readUint16 data 0 + readUint16 data (2 + readUint16 data 0)) : Nat) < 0
  · left
    rw [if_pos h7]
  rw [if_neg h7]
  by_cases hA : st.auth_info = none
  · right
    right
    exact ⟨_, _, _, by rw [if_pos hA]⟩
  by_cases hT : st.kx_auth_type ≠ st.auth_info_type
  · right
    left
    exact ⟨_, _, _, by rw [if_neg hA, if_pos hT]⟩
  · right
    right
    exact ⟨_, _, _, by rw [if_neg hA, if_neg hT]⟩

/-- C4 (amended): a `proc_anon_server_kx` failure with
`GNUTLS_E_UNEXPECTED_PACKET_LENGTH` leaves the session state exactly as
it was (and nothing leaks), but the `GNUTLS_E_INVALID_REQUEST` failure
happens after the three scans: the decoded `client_Y`, `client_g`,
`client_p` remain stored, while `auth_info`, its type tag, `dh_secret`
and the key material are untouched. -/
theorem C4_failure_state_amended (st : GState) (data : List Nat) (ds : Int) :
    ((proc_anon_server_kx st data ds).ret = .error .UNEXPECTED_PACKET_LENGTH →
      (proc_anon_server_kx st data ds).st = st ∧
      (proc_anon_server_kx st data ds).leaked = []) ∧
    ((proc_anon_server_kx st data ds).ret = .error .INVALID_REQUEST →
      (proc_anon_server_kx st data ds).st.client_Y ≠ none ∧
      (proc_anon_server_kx st data ds).st.client_g ≠ none ∧
      (proc_anon_server_kx st data ds).st.client_p ≠ none ∧
      (proc_anon_server_kx st data ds).st.auth_info = st.auth_info ∧
      (proc_anon_server_kx st data ds).st.auth_info_type = st.auth_info_type ∧
      (proc_anon_server_kx st data ds).st.dh_secret = st.dh_secret ∧
      (proc_anon_server_kx st data ds).st.key_data = st.key_data) := by
  rcases proc_server_kx_cases st data ds with h | ⟨Y, g, p, h⟩ | ⟨Y, g, p, h⟩ <;>
    rw [h] <;> exact ⟨fun hr => by simp_all, fun hr => by simp_all⟩

theorem C4_failure_state_witness :
    (proc_anon_server_kx { auth_info := some ⟨7⟩, auth_info_type := CredType.other }
        (encodeServerKx 23 5 8) ((encodeServerKx 23 5 8).length : Int)).st.client_Y
      ≠ none ∧
    (proc_anon_server_kx { auth_info := some ⟨7⟩, auth_info_type := CredType.other }
        (encodeServerKx 23 5 8) ((encodeServerKx 23 5 8).length : Int)).st.auth_info
      = ({ auth_info := some ⟨7⟩, auth_info_type := CredType.other } : GState).auth_info :=
  ⟨((C4_failure_state_amended { auth_info := some ⟨7⟩, auth_info_type := CredType.other }
      (encodeServerKx 23 5 8) ((encodeServerKx 23 5 8).length : Int)).2 rfl).1,
   ((C4_failure_state_amended { auth_info := some ⟨7⟩, auth_info_type := CredType.other }
      (encodeServerKx 23 5 8) ((encodeServerKx 23 5 8).length : Int)).2 rfl).2.2.2.1⟩

/-- C5: the code leaks on the failed-derivation paths.  When
`gnutls_calc_dh_key` fails inside `proc_anon_client_kx`, the regenerated
`p` and `g` are never released and the scanned `client_Y` and stored
`dh_secret` stay referenced from the session state; when it fails inside
`gen_anon_client_kx`, the local exponent `x` is not released and
`client_Y`/`client_g`/`client_p` stay stored.  This contradicts the
claim (and spec §7), which requires every big integer allocated or
scanned during the failing call to be released. -/
theorem C5_error_path_leaks :
    proc_anon_client_kx ⟨some 10, fun _ => some (5, 23), some 6, false⟩
        { dh_secret := some 6 } (clientKxBuf 8) ((clientKxBuf 8).length : Int)
      = ⟨.error .MEMORY_ERROR, { dh_secret := some 6, client_Y := some 8 }, [5, 23]⟩ ∧
    gen_anon_client_kx ⟨some 10, fun _ => some (5, 23), some 6, false⟩
        { client_Y := some 8, client_g := some 5, client_p := some 23 }
      = ⟨.error .MEMORY_ERROR,
          { client_Y := some 8, client_g := some 5, client_p := some 23 }, [6]⟩ :=
  ⟨rfl, rfl⟩

/-- C6 (counterexample): `gen_anon_client_kx` on a session where
client-process has not run (all three parameter slots unset) fails with
`GNUTLS_E_MEMORY_ERROR` - not with `GNUTLS_E_INVALID_REQUEST` as the
claim states; there is no explicit state check, the failure comes from
the key-pair generation receiving NULL parameters. -/
theorem C6_invalid_request_counterexample :
    (gen_anon_client_kx ⟨some 10, fun _ => some (5, 23), some 6, true⟩ {}).ret
      = .error .MEMORY_ERROR ∧
    (Except.error GErr.MEMORY_ERROR : Except GErr (List Nat))
      ≠ .error .INVALID_REQUEST :=
  ⟨rfl, by simp⟩

/-- C6 (amended): calling the operations before their predecessor fails
with `GNUTLS_E_MEMORY_ERROR` (from the failed crypto call - the code has
no explicit state check).  `gen_anon_client_kx` before client-process
allocates nothing and leaves the state alone; `proc_anon_client_kx`
before server-generate, on a well-formed message, leaves the decoded
`client_Y` stored and the regenerated `p` and `g` unreleased. -/
theorem C6_premature_call_amended :
    (∀ (env : Env) (st : GState), st.client_g = none → st.client_p = none →
      st.client_Y = none →
      gen_anon_client_kx env st = ⟨.error .MEMORY_ERROR, st, []⟩) ∧
    (∀ (env : Env) (st : GState) (Y g p : Nat), st.dh_secret = none →
      env.params (credBits env) = some (g, p) → (minBytes Y).length < 65536 →
      proc_anon_client_kx env st (clientKxBuf Y) ((clientKxBuf Y).length : Int)
        = ⟨.error .MEMORY_ERROR, { st with client_Y := some Y }, [g, p]⟩) := by
  constructor
  · intro env st hg hp hY
    unfold gen_anon_client_kx
    rw [hg, hp]
    unfold gnutls_calc_dh_secret
    cases env.rand <;> rfl
  · intro env st Y g p hsec hparams hnY
    rw [proc_client_kx_decode env st Y hnY, hparams]
    dsimp only
    rw [hsec]
    rfl

theorem C6_premature_call_witness :
    gen_anon_client_kx ⟨some 10, fun _ => some (5, 23), some 6, true⟩ {}
      = ⟨.error .MEMORY_ERROR, {}, []⟩ ∧
    proc_anon_client_kx ⟨some 10, fun _ => some (5, 23), some 6, true⟩ {}
        (clientKxBuf 8) ((clientKxBuf 8).length : Int)
      = ⟨.error .MEMORY_ERROR, { client_Y := some 8 }, [5, 23]⟩ :=
  ⟨C6_premature_call_amended.1 _ {} rfl rfl rfl,
   C6_premature_call_amended.2 _ {} 8 5 23 rfl rfl (by decide)⟩

/-- C7: with an `auth_info` of a conflicting exchange type already set,
both `gen_anon_server_kx` and `proc_anon_server_kx` fail with
`GNUTLS_E_INVALID_REQUEST` and leave `auth_info` and its tag untouched;
with `auth_info` unset they allocate it, tag it anonymous and record
`dh_bits` as the bit length of the modulus. -/
theorem C7_auth_info_consistency :
    (∀ (env : Env) (st : GState) (g p : Nat),
      env.params (credBits env) = some (g, p) →
      st.auth_info ≠ none → st.kx_auth_type ≠ st.auth_info_type →
      gen_anon_server_kx env st = ⟨.error .INVALID_REQUEST, st, [g, p]⟩) ∧
    (∀ (env : Env) (st : GState) (g p : Nat),
      env.params (credBits env) = some (g, p) → st.auth_info = none →
      (gen_anon_server_kx env st).st.auth_info = some ⟨mpi_nbits p⟩ ∧
      (gen_anon_server_kx env st).st.auth_info_type = .anon) ∧
    (∀ (st : GState) (p g X : Nat),
      (minBytes p).length < 65536 → (minBytes g).length < 65536 →
      (minBytes X).length < 65536 →
      (minBytes p).length ≤ (minBytes g).length + (minBytes X).length + 2 →
      st.auth_info ≠ none → st.kx_auth_type ≠ st.auth_info_type →
      (proc_anon_server_kx st (encodeServerKx p g X)
          ((encodeServerKx p g X).length : Int)).ret = .error .INVALID_REQUEST ∧
      (proc_anon_server_kx st (encodeServerKx p g X)
          ((encodeServerKx p g X).length : Int)).st.auth_info = st.auth_info ∧
      (proc_anon_server_kx st (encodeServerKx p g X)
          ((encodeServerKx p g X).length : Int)).st.auth_info_type
        = st.auth_info_type) ∧
    (∀ (st : GState) (p g X : Nat),
      (minBytes p).length < 65536 → (minBytes g).length < 65536 →
      (minBytes X).length < 65536 →
      (minBytes p).length ≤ (minBytes g).length + (minBytes X).length + 2 →
      st.auth_info = none →
      (proc_anon_server_kx st (encodeServerKx p g X)
          ((encodeServerKx p g X).length : Int)).ret = .ok () ∧
      (proc_anon_server_kx st (encodeServerKx p g X)
          ((encodeServerKx p g X).length : Int)).st.auth_info
        = some ⟨mpi_nbits p⟩ ∧
      (proc_anon_server_kx st (encodeServerKx p g X)
          ((encodeServerKx p g X).length : Int)).st.auth_info_type = .anon) := by
  refine ⟨?_, ?_, ?_, ?_⟩
  · intro env st g p hparams hne hT
    unfold gen_anon_server_kx
    rw [hparams]
    dsimp only
    rw [if_neg hne, if_pos hT]
  · intro env st g p hparams hA
    unfold gen_anon_server_kx
    rw [hparams]
    dsimp only
    rw [if_pos hA]
    unfold gen_anon_server_kx_rest
    cases hsec : gnutls_calc_dh_secret env (some g) (some p) with
    | none => exact ⟨rfl, rfl⟩
    | some xX =>
      obtain ⟨x, X⟩ := xX
      exact ⟨rfl, rfl⟩
  · intro st p g X hnp hng hnX hfit hne hT
    rw [proc_server_encode_core st p g X hnp hng hnX hfit, if_neg hne, if_pos hT]
    exact ⟨rfl, rfl, rfl⟩
  · intro st p g X hnp hng hnX hfit hA
    rw [proc_server_encode_core st p g X hnp hng hnX hfit, if_pos hA]
    exact ⟨rfl, rfl, rfl⟩

theorem C7_auth_info_consistency_witness :
    gen_anon_server_kx ⟨some 10, fun _ => some (5, 23), some 6, true⟩
        { auth_info := some ⟨7⟩, auth_info_type := CredType.other }
      = ⟨.error .INVALID_REQUEST,
          { auth_info := some ⟨7⟩, auth_info_type := CredType.other }, [5, 23]⟩ ∧
    (gen_anon_server_kx ⟨some 10, fun _ => some (5, 23), some 6, true⟩ {}).st.auth_info
      = some ⟨mpi_nbits 23⟩ ∧
    (proc_anon_server_kx { auth_info := some ⟨7⟩, auth_info_type := CredType.other }
        (encodeServerKx 23 5 8) ((encodeServerKx 23 5 8).length : Int)).ret
      = .error .INVALID_REQUEST ∧
    (proc_anon_server_kx {} (encodeServerKx 23 5 8)
        ((encodeServerKx 23 5 8).length : Int)).st.auth_info = some ⟨mpi_nbits 23⟩ :=
  ⟨C7_auth_info_consistency.1 _ _ 5 23 rfl (by simp) (by simp),
   (C7_auth_info_consistency.2.1 _ {} 5 23 rfl rfl).1,
   (C7_auth_info_consistency.2.2.1 { auth_info := some ⟨7⟩, auth_info_type := CredType.other }
      23 5 8 (by decide) (by decide) (by decide) (by decide) (by simp) (by simp)).1,
   (C7_auth_info_consistency.2.2.2 {} 23 5 8
      (by decide) (by decide) (by decide) (by decide) rfl).2.1⟩

/-- C8: a successful `gen_anon_client_kx` returns exactly the 2-byte
big-endian length followed by the minimal bytes of the public value
(`n_X + 2` bytes in total), and building the buffer without the interim
`(*data)[0] = 1` store yields the identical bytes. -/
theorem C8_client_message_format (env : Env) (st : GState) (g p x Y : Nat)
    (hg : st.client_g = some g) (hp : st.client_p = some p)
    (hY : st.client_Y = some Y) (hx : env.rand = some x)
    (hok : env.dh_key_ok = true) :
    (gen_anon_client_kx env st).ret
      = .ok (be16 (minBytes (g ^ x % p)).length ++ minBytes (g ^ x % p)) ∧
    (be16 (minBytes (g ^ x % p)).length ++ minBytes (g ^ x % p)).length
      = (minBytes (g ^ x % p)).length + 2 ∧
    clientKxBufNoSet (g ^ x % p) = clientKxBuf (g ^ x % p) := by
  refine ⟨?_, ?_, clientKxBufNoSet_eq _⟩
  · rw [gen_client_kx_ok env st g p x Y hg hp hY hx hok]
    dsimp only
    rw [clientKxBuf_eq]
  · simp only [List.length_append, be16_length]
    omega

theorem C8_client_message_format_witness :
    (gen_anon_client_kx ⟨none, fun _ => none, some 15, true⟩
        { client_Y := some 8, client_g := some 5, client_p := some 23 }).ret
      = .ok (be16 (minBytes (5 ^ 15 % 23)).length ++ minBytes (5 ^ 15 % 23)) ∧
    (be16 (minBytes (5 ^ 15 % 23)).length ++ minBytes (5 ^ 15 % 23)).length
      = (minBytes (5 ^ 15 % 23)).length + 2 ∧
    clientKxBufNoSet (5 ^ 15 % 23) = clientKxBuf (5 ^ 15 % 23) :=
  C8_client_message_format ⟨none, fun _ => none, some 15, true⟩
    { client_Y := some 8, client_g := some 5, client_p := some 23 }
    5 23 15 8 rfl rfl rfl rfl rfl

/-- C9: a field whose declared 2-byte length is 0 parses to the big
integer 0 with no error, in both decoders: `proc_anon_server_kx` accepts
a zero-length generator field and stores `client_g = 0`, and
`proc_anon_client_kx` scans a zero-length public value to 0 and never
returns `GNUTLS_E_MPI_SCAN_FAILED`. -/
theorem C9_zero_length_field :
    (∀ (st : GState) (p X : Nat),
      (minBytes p).length < 65536 → (minBytes X).length < 65536 →
      (minBytes p).length ≤ (minBytes X).length + 2 →
      st.auth_info = none →
      (proc_anon_server_kx st (encodeServerKx p 0 X)
          ((encodeServerKx p 0 X).length : Int)).ret = .ok () ∧
      (proc_anon_server_kx st (encodeServerKx p 0 X)
          ((encodeServerKx p 0 X).length : Int)).st.client_g = some 0) ∧
    (∀ (env : Env) (st : GState),
      _gnutls_mpi_scan (byteSlice (clientKxBuf 0) 2 (readUint16 (clientKxBuf 0) 0))
        = 0 ∧
      (proc_anon_client_kx env st (clientKxBuf 0)
          ((clientKxBuf 0).length : Int)).ret ≠ .error .MPI_SCAN_FAILED) := by
  constructor
  · intro st p X hnp hnX hfit hA
    have hfit0 : (minBytes p).length
        ≤ (minBytes 0).length + (minBytes X).length + 2 := by
      rw [show (minBytes 0).length = 0 from rfl]
      omega
    rw [proc_server_encode_core st p 0 X hnp (by decide) hnX hfit0, if_pos hA]
    exact ⟨rfl, rfl⟩
  · intro env st
    refine ⟨rfl, ?_⟩
    rw [proc_client_kx_decode env st 0 (by decide)]
    cases henv : env.params (credBits env) with
    | none => simp
    | some gp =>
      obtain ⟨g, p⟩ := gp
      dsimp only
      cases hk : gnutls_calc_dh_key env (some 0) st.dh_secret (some p) <;> simp

theorem C9_zero_length_field_witness :
    (proc_anon_server_kx {} (encodeServerKx 23 0 8)
        ((encodeServerKx 23 0 8).length : Int)).ret = .ok () ∧
    (proc_anon_server_kx {} (encodeServerKx 23 0 8)
        ((encodeServerKx 23 0 8).length : Int)).st.client_g = some 0 ∧
    (proc_anon_client_kx ⟨some 10, fun _ => some (5, 23), some 6, true⟩ {}
        (clientKxBuf 0) ((clientKxBuf 0).length : Int)).ret
      ≠ .error .MPI_SCAN_FAILED :=
  ⟨(C9_zero_length_field.1 {} 23 8 (by decide) (by decide) (by decide) rfl).1,
   (C9_zero_length_field.1 {} 23 8 (by decide) (by decide) (by decide) rfl).2,
   (C9_zero_length_field.2 ⟨some 10, fun _ => some (5, 23), some 6, true⟩ {}).2⟩

theorem pow_mod_swap (g p a b : Nat) :
    (g ^ a % p) ^ b % p = (g ^ b % p) ^ a % p := by
  rw [← Nat.pow_mod, ← Nat.pow_mod, ← pow_mul, ← pow_mul, Nat.mul_comm]

/-- C1: running the four operations in protocol order with a Parameter
Source that answers the same `(g, p)` on both server calls and
successfully generated exponents yields byte-identical raw key material
(`key.data` from `_gnutls_generate_key`) on the client and the server
side. -/
theorem C1_shared_key_agreement
    (envS envC : Env) (s0 c0 : GState) (g p xs xc : Nat)
    (hparams : envS.params (credBits envS) = some (g, p))
    (hxs : envS.rand = some xs) (hxc : envC.rand = some xc)
    (hokC : envC.dh_key_ok = true) (hokS : envS.dh_key_ok = true)
    (hs0 : s0.auth_info = none) (hc0 : c0.auth_info = none)
    (hnp : (minBytes p).length < 65536) (hng : (minBytes g).length < 65536)
    (hnXs : (minBytes (g ^ xs % p)).length < 65536)
    (hnXc : (minBytes (g ^ xc % p)).length < 65536)
    (hfit : (minBytes p).length
      ≤ (minBytes g).length + (minBytes (g ^ xs % p)).length + 2) :
    ∃ msg1 msg2 key : List Nat,
      (gen_anon_server_kx envS s0).ret = .ok msg1 ∧
      (proc_anon_server_kx c0 msg1 (msg1.length : Int)).ret = .ok () ∧
      (gen_anon_client_kx envC (proc_anon_server_kx c0 msg1 (msg1.length : Int)).st).ret
        = .ok msg2 ∧
      (proc_anon_client_kx envS (gen_anon_server_kx envS s0).st msg2
          (msg2.length : Int)).ret = .ok () ∧
      (gen_anon_client_kx envC
          (proc_anon_server_kx c0 msg1 (msg1.length : Int)).st).st.key_data
        = some key ∧
      (proc_anon_client_kx envS (gen_anon_server_kx envS s0).st msg2
          (msg2.length : Int)).st.key_data = some key := by
  have h1 := gen_server_kx_ok envS s0 g p xs hparams hxs hs0
  have h2 := proc_server_encode_core c0 p g (g ^ xs % p) hnp hng hnXs hfit
  rw [if_pos hc0] at h2
  refine ⟨encodeServerKx p g (g ^ xs % p), clientKxBuf (g ^ xc % p),
    minBytes ((g ^ xs % p) ^ xc % p), ?_, ?_, ?_, ?_, ?_, ?_⟩
  · rw [h1, serverKxBuf_eq]
  · rw [h2]
  · rw [h2]
    rw [gen_client_kx_ok envC _ g p xc (g ^ xs % p) rfl rfl rfl hxc hokC]
  · rw [h1]
    rw [proc_client_kx_decode envS _ (g ^ xc % p) hnXc, hparams]
    dsimp only
    simp only [gnutls_calc_dh_key, hokS, if_true]
  · rw [h2]
    rw [gen_client_kx_ok envC _ g p xc (g ^ xs % p) rfl rfl rfl hxc hokC]
  · rw [h1]
    rw [proc_client_kx_decode envS _ (g ^ xc % p) hnXc, hparams]
    dsimp only
    simp only [gnutls_calc_dh_key, hokS, if_true]
    rw [pow_mod_swap]

theorem C1_shared_key_agreement_witness :
    ∃ msg1 msg2 key : List Nat,
      (gen_anon_server_kx ⟨some 10, fun _ => some (5, 23), some 6, true⟩ {}).ret
        = .ok msg1 ∧
      (proc_anon_server_kx {} msg1 (msg1.length : Int)).ret = .ok () ∧
      (gen_anon_client_kx ⟨none, fun _ => none, some 15, true⟩
          (proc_anon_server_kx {} msg1 (msg1.length : Int)).st).ret = .ok msg2 ∧
      (proc_anon_client_kx ⟨some 10, fun _ => some (5, 23), some 6, true⟩
          (gen_anon_server_kx ⟨some 10, fun _ => some (5, 23), some 6, true⟩ {}).st
          msg2 (msg2.length : Int)).ret = .ok () ∧
      (gen_anon_client_kx ⟨none, fun _ => none, some 15, true⟩
          (proc_anon_server_kx {} msg1 (msg1.length : Int)).st).st.key_data
        = some key ∧
      (proc_anon_client_kx ⟨some 10, fun _ => some (5, 23), some 6, true⟩
          (gen_anon_server_kx ⟨some 10, fun _ => some (5, 23), some 6, true⟩ {}).st
          msg2 (msg2.length : Int)).st.key_data = some key :=
  C1_shared_key_agreement ⟨some 10, fun _ => some (5, 23), some 6, true⟩
    ⟨none, fun _ => none, some 15, true⟩ {} {} 5 23 6 15
    rfl rfl rfl rfl rfl rfl rfl
    (by decide) (by decide) (by decide) (by decide) (by decide)
